import Mathlib

/-!
Shallow embedding of the blink repository's two scripts that the claims
concern: `download_top_nasdaq_200.py` (ticker loader, per-ticker download
task, bulk orchestrator, CLI argument parsing) and `get_company_info.py`
(metadata summarizer and its `__main__` block).

External effects (filesystem, network, clock) are modelled by explicit
environment records; the nondeterministic completion order of the thread
pool is modelled by an explicit permutation of the submitted ticker list.
-/

/-! ### Python string primitives

Executable (kernel-reducible) models of the Python string methods the
scripts use, over the character list underlying a `String`. -/

/-- The whitespace characters `str.strip()` removes. -/
def pyIsSpace (c : Char) : Bool :=
  c = ' ' || c = '\t' || c = '\n' || c = '\r' || c = '\x0b' || c = '\x0c'

/-- `str.strip()` on a character list. -/
def stripChars (l : List Char) : List Char :=
  ((l.dropWhile pyIsSpace).reverse.dropWhile pyIsSpace).reverse

/-- `str.strip()`. -/
def pyStrip (s : String) : String := ⟨stripChars s.data⟩

/-- `str.upper()` on one ASCII character. -/
def pyCharUpper (c : Char) : Char :=
  if 'a' ≤ c ∧ c ≤ 'z' then Char.ofNat (c.toNat - 32) else c

/-- `str.upper()`. -/
def pyUpper (s : String) : String := ⟨s.data.map pyCharUpper⟩

/-- `s.startswith(pre)`. -/
def pyStartsWith (s pre : String) : Bool := pre.data.isPrefixOf s.data

/-! ### Ticker list loader (`get_top_nasdaq_stocks`) -/

/-- One iteration of the read loop in `get_top_nasdaq_stocks`:
`line.strip()`, skip empty lines and lines starting with `#`,
otherwise keep `line.upper()`. -/
def processLine (line : String) : Option String :=
  let l := pyStrip line
  if l ≠ "" ∧ ¬ (pyStartsWith l "#") then some (pyUpper l) else none

/-- `get_top_nasdaq_stocks(count)`.  `fileLines = none` models a missing
`nasdaq_tickers.txt` (the function prints an error and returns `[]`);
`some ls` models the file's lines.  After the filtering loop the code
returns the whole list when fewer than `count` tickers were found and
`tickers[:count]` otherwise. -/
def get_top_nasdaq_stocks (fileLines : Option (List String)) (count : Nat) : List String :=
  match fileLines with
  | none => []
  | some ls =>
    let tickers := ls.filterMap processLine
    if tickers.length < count then tickers else tickers.take count

/-! ### Per-ticker download task (`download_single_ticker`) -/

/-- The `(ticker, success, message)` tuple returned by
`download_single_ticker`. -/
structure Outcome where
  ticker : String
  success : Bool
  message : String
deriving DecidableEq, Repr

/-- Observable side effects of one task: whether `stock.history(...)`
was called (a network fetch) and whether `hist_data.to_csv(...)` was
called (a file write). -/
structure Effects where
  fetched : Bool
  wrote : Bool
deriving DecidableEq, Repr

deriving instance DecidableEq for Except

/-- Environment seen by one `download_single_ticker` call: the state of
the filesystem for this ticker's artifact, and the behaviour of the
external collaborator (`yfinance`) and of the write. -/
structure TickerEnv where
  /-- `os.path.exists(folder_name)` -/
  dirExists : Bool
  /-- result of `os.makedirs(folder_name)` when attempted: `some e` raises. -/
  mkdirError : Option String
  /-- `os.path.exists(file_path)` -/
  fileExists : Bool
  /-- `time.time() - os.path.getmtime(file_path)` (an age in seconds). -/
  fileAge : Int
  /-- `stock.history(period="max")`: raises, or returns a frame with
  this many rows (`0` models `hist_data.empty`). -/
  fetch : Except String Nat
  /-- result of `hist_data.to_csv(file_path)`: `some e` raises. -/
  writeError : Option String
deriving DecidableEq

/-- The body of the `try:` block of `download_single_ticker`, before the
`except Exception` handler.  An `.error` carries the raised exception's
string together with the effects performed up to the raise. -/
def download_single_ticker_body (ticker : String) (env : TickerEnv) :
    Except (String × Effects) (Outcome × Effects) :=
  match (if env.dirExists then none else env.mkdirError) with
  | some e => .error (e, ⟨false, false⟩)
  | none =>
    if env.fileExists ∧ env.fileAge < 86400 then
      .ok (⟨ticker, true, "Already exists (recent)"⟩, ⟨false, false⟩)
    else
      match env.fetch with
      | .error e => .error (e, ⟨true, false⟩)
      | .ok rows =>
        if rows = 0 then
          .ok (⟨ticker, false, "No data available"⟩, ⟨true, false⟩)
        else
          match env.writeError with
          | some e => .error (e, ⟨true, true⟩)
          | none =>
            .ok (⟨ticker, true, "Downloaded " ++ toString rows ++ " records"⟩,
                 ⟨true, true⟩)

/-- `download_single_ticker`: the body wrapped in the
`except Exception as e: return ticker, False, f"Error: {str(e)}"`
handler, so the call itself never raises. -/
def download_single_ticker (ticker : String) (env : TickerEnv) : Outcome × Effects :=
  match download_single_ticker_body ticker env with
  | .ok r => r
  | .error (e, eff) => (⟨ticker, false, "Error: " ++ e⟩, eff)

/-! ### Bulk orchestrator (`download_nasdaq_200_bulk`) -/

/-- One iteration of the `as_completed` loop: append the completed
ticker to `successful` or `(ticker, message)` to `failed`. -/
def bulk_step (env : String → TickerEnv)
    (acc : List String × List (String × String)) (t : String) :
    List String × List (String × String) :=
  if (download_single_ticker t (env t)).1.success then
    (acc.1 ++ [(download_single_ticker t (env t)).1.ticker], acc.2)
  else
    (acc.1, acc.2 ++ [((download_single_ticker t (env t)).1.ticker,
                       (download_single_ticker t (env t)).1.message)])

/-- The `as_completed` result loop, consuming outcomes in completion
order `perm` (a permutation of the submitted tickers). -/
def run_bulk_loop (perm : List String) (env : String → TickerEnv) :
    List String × List (String × String) :=
  perm.foldl (bulk_step env) ([], [])

/-- `download_nasdaq_200_bulk`: loads the ticker list (with
`count = 200`), runs the pool loop, then prints the summary.  The
summary line `elapsed_time/len(tickers)` divides by `len(tickers)`
unconditionally, so the call raises `ZeroDivisionError` when the ticker
list is empty; otherwise it returns `(successful, failed)`. -/
def download_nasdaq_200_bulk (fileLines : Option (List String))
    (env : String → TickerEnv) (perm : List String) :
    Except String (List String × List (String × String)) :=
  if (get_top_nasdaq_stocks fileLines 200).length = 0 then
    .error "ZeroDivisionError: float division by zero"
  else .ok (run_bulk_loop perm env)

/-! ### CLI argument parsing in `main` of `download_top_nasdaq_200.py` -/

def pyDigit (c : Char) : Bool := decide ('0' ≤ c) && decide (c ≤ '9')

/-- Python's `int(s)` on a plain decimal string: optional surrounding
whitespace, optional sign, then a nonempty run of digits; anything else
raises `ValueError` (modelled as `none`). -/
def int_of_string (s : String) : Option Int :=
  let t := stripChars s.data
  let sd : Int × List Char :=
    match t with
    | '-' :: rest => (-1, rest)
    | '+' :: rest => (1, rest)
    | _ => (1, t)
  if sd.2 ≠ [] ∧ sd.2.all pyDigit = true then
    some (sd.1 * sd.2.foldl (fun acc c => 10 * acc + (((c.toNat - 48 : Nat)) : Int)) 0)
  else none

/-- The argument handling in `main`: `max_workers = 10`; when a first
positional argument is present, `int(sys.argv[1])` replaces it, and a
`ValueError` is caught, printing the warning
`"Invalid max_workers argument. Using default: 10"`.  Returns
`(max_workers, warned)` where `args` is `sys.argv[1:]`. -/
def parse_max_workers (args : List String) : Int × Bool :=
  match args with
  | [] => (10, false)
  | a :: _ =>
    match int_of_string a with
    | some n => (n, false)
    | none => (10, true)

/-! ### Metadata summarizer (`get_company_info.py`) -/

/-- The fields of `ticker.info` that `get_company_info` reads.  `none`
models a key absent from the dict (an empty dict has every field
`none`). -/
structure YfInfo where
  shortName : Option String
  longName : Option String
  industry : Option String
  sector : Option String
  longBusinessSummary : Option String
deriving DecidableEq

/-- The record `get_company_info` returns on success. -/
structure CompanyRecord where
  ticker : String
  name : String
  industry : String
  sector : String
  description : String
deriving DecidableEq, Repr

/-- Python's `s.rfind(c)` over a list of characters: the highest index
at which `c` occurs, or `-1` when it does not occur. -/
def rfindChar : List Char → Char → Int
  | [], _ => -1
  | x :: xs, c =>
    let r := rfindChar xs c
    if 0 ≤ r then r + 1
    else if x = c then 0 else -1

/-- The description-truncation block of `get_company_info`: when the
description exceeds 500 characters, take the first 500, find the last
`'.'` in that prefix, cut just after it when its index exceeds 200, and
otherwise append `"..."` to the 500-character prefix. -/
def truncate_description (description : List Char) : List Char :=
  if 500 < description.length then
    let truncated := description.take 500
    let lastPeriod := rfindChar truncated '.'
    if 200 < lastPeriod then truncated.take (lastPeriod.toNat + 1)
    else truncated ++ ['.', '.', '.']
  else description

/-- Python's `x or y` for an optional string field `x` (falsy when
absent or empty) with fallback `y`, as in
`info.get("shortName") or info.get("longName", "N/A")`. -/
def truthyOr (x : Option String) (y : String) : String :=
  match x with
  | some s => if s = "" then y else s
  | none => y

/-- `get_company_info(ticker_symbol)`.  `info_result` models
`yf.Ticker(ticker_symbol.upper()).info` inside the `try:` block:
`.error e` models a raised exception (caught and returned as
`{"error": str(e)}`), `.ok info` the returned dict.  The guard
`not info or "shortName" not in info` holds exactly when `shortName`
is absent. -/
def get_company_info (ticker_symbol : String) (info_result : Except String YfInfo) :
    Except String CompanyRecord :=
  match info_result with
  | .error e => .error e
  | .ok info =>
    if info.shortName = none then
      .error ("Could not find company info for " ++ ticker_symbol)
    else
      .ok { ticker := pyUpper ticker_symbol
            name := truthyOr info.shortName (info.longName.getD "N/A")
            industry := info.industry.getD "N/A"
            sector := info.sector.getD "N/A"
            description := ⟨truncate_description (info.longBusinessSummary.getD "").data⟩ }

/-- The `__main__` block of `get_company_info.py`: with no argument it
prints `{"error": "No ticker symbol provided"}` and exits with status
1; otherwise it prints `get_company_info(sys.argv[1])` and exits with
status 0.  `args` is `sys.argv[1:]`. -/
def summarizer_main (args : List String) (info_result : Except String YfInfo) :
    Except String CompanyRecord × Nat :=
  match args with
  | [] => (.error "No ticker symbol provided", 1)
  | t :: _ => (get_company_info t info_result, 0)


/-! ### Helper lemmas -/

theorem download_single_ticker_fst_ticker (t : String) (env : TickerEnv) :
    (download_single_ticker t env).1.ticker = t := by
  rcases env with ⟨d, mk, fe, age, f, w⟩
  unfold download_single_ticker download_single_ticker_body
  rcases f with e | rows <;> rcases mk with _ | m <;> rcases w with _ | wv <;>
    cases d <;> dsimp only <;> split_ifs <;> rfl

theorem run_bulk_loop_acc (env : String → TickerEnv) (perm : List String)
    (s : List String) (f : List (String × String)) :
    perm.foldl (bulk_step env) (s, f) =
      (s ++ (run_bulk_loop perm env).1, f ++ (run_bulk_loop perm env).2) := by
  induction perm generalizing s f with
  | nil => simp [run_bulk_loop]
  | cons t rest ih =>
    have hstep : run_bulk_loop (t :: rest) env =
        List.foldl (bulk_step env)
          ((bulk_step env ([], []) t).1, (bulk_step env ([], []) t).2) rest := rfl
    rw [List.foldl_cons, hstep]
    by_cases h : ((download_single_ticker t (env t)).1).success
    · simp only [bulk_step, if_pos h, List.nil_append]
      rw [ih, ih]
      simp [List.append_assoc]
    · simp only [bulk_step, if_neg h, List.nil_append]
      rw [ih, ih]
      simp [List.append_assoc]

theorem run_bulk_loop_cons (t : String) (rest : List String) (env : String → TickerEnv) :
    run_bulk_loop (t :: rest) env =
      ((bulk_step env ([], []) t).1 ++ (run_bulk_loop rest env).1,
       (bulk_step env ([], []) t).2 ++ (run_bulk_loop rest env).2) := by
  have hstep : run_bulk_loop (t :: rest) env =
      List.foldl (bulk_step env)
        ((bulk_step env ([], []) t).1, (bulk_step env ([], []) t).2) rest := rfl
  rw [hstep, run_bulk_loop_acc]

theorem run_bulk_loop_perm (perm : List String) (env : String → TickerEnv) :
    ((run_bulk_loop perm env).1 ++ (run_bulk_loop perm env).2.map Prod.fst).Perm perm := by
  induction perm with
  | nil => simp [run_bulk_loop]
  | cons t rest ih =>
    have hx := download_single_ticker_fst_ticker t (env t)
    rw [run_bulk_loop_cons]
    by_cases h : ((download_single_ticker t (env t)).1).success
    · simp only [bulk_step, if_pos h, List.nil_append, hx]
      simpa using ih.cons t
    · simp only [bulk_step, if_neg h, List.nil_append, hx, List.map_append,
        List.map_cons, List.map_nil]
      exact List.perm_middle.trans (ih.cons t)

theorem run_bulk_loop_length (perm : List String) (env : String → TickerEnv) :
    (run_bulk_loop perm env).1.length + (run_bulk_loop perm env).2.length = perm.length := by
  have h := (run_bulk_loop_perm perm env).length_eq
  simpa using h

theorem rfindChar_ge_neg_one (l : List Char) (c : Char) : -1 ≤ rfindChar l c := by
  induction l with
  | nil => simp [rfindChar]
  | cons x xs ih =>
    simp only [rfindChar]
    split_ifs <;> omega

theorem rfindChar_lt_length (l : List Char) (c : Char) :
    rfindChar l c < l.length := by
  induction l with
  | nil => simp [rfindChar]
  | cons x xs ih =>
    simp only [rfindChar, List.length_cons]
    split_ifs <;> push_cast <;> omega

theorem rfindChar_get (l : List Char) (c : Char) (h : 0 ≤ rfindChar l c) :
    l.get? (rfindChar l c).toNat = some c := by
  induction l with
  | nil => simp [rfindChar] at h
  | cons x xs ih =>
    simp only [rfindChar] at h ⊢
    split_ifs with h1 h2
    · have h3 := rfindChar_ge_neg_one xs c
      have h4 : (rfindChar xs c + 1).toNat = (rfindChar xs c).toNat + 1 := by omega
      rw [h4]
      simpa using ih h1
    · rw [h2]; simp
    · simp only [if_neg h1, if_neg h2] at h
      omega

theorem rfindChar_eq_neg_one (l : List Char) (c : Char) (h : c ∉ l) :
    rfindChar l c = -1 := by
  induction l with
  | nil => simp [rfindChar]
  | cons x xs ih =>
    simp only [List.mem_cons, not_or] at h
    have h2 := ih h.2
    simp only [rfindChar, h2]
    have hx : ¬ x = c := fun hc => h.1 hc.symm
    simp [hx]

theorem getLast_of_take_succ (l : List Char) (i : Nat) (c : Char)
    (h : l.get? i = some c) : (l.take (i + 1)).getLast? = some c := by
  induction l generalizing i with
  | nil => simp at h
  | cons x xs ih =>
    cases i with
    | zero =>
      simp only [List.get?] at h
      simp [List.take, h.symm]
    | succ n =>
      simp only [List.get?] at h
      have h2 := ih n h
      have hlt : n < xs.length := (List.get?_eq_some.mp h).1
      have hne : xs.take (n + 1) ≠ [] := by
        intro hnil
        have hlen : (xs.take (n + 1)).length = 0 := by rw [hnil]; rfl
        rw [List.length_take] at hlen
        omega
      obtain ⟨y, ys, hyys⟩ := List.exists_cons_of_ne_nil hne
      have hta : (x :: xs).take (n + 1 + 1) = x :: xs.take (n + 1) := rfl
      rw [hta, hyys, List.getLast?_cons_cons, ← hyys]
      exact h2

theorem get_top_eq_take (ls : List String) (count : Nat) :
    get_top_nasdaq_stocks (some ls) count = (ls.filterMap processLine).take count := by
  simp only [get_top_nasdaq_stocks]
  split_ifs with h
  · exact (List.take_of_length_le (le_of_lt h)).symm
  · rfl

/-! ### Concrete environments and inputs used by witnesses and
counterexamples -/

/-- Artifact absent, fetch succeeds with 1 row, write succeeds. -/
def envFetchOk : TickerEnv := ⟨true, none, false, 0, .ok 1, none⟩

/-- Artifact absent, fetch returns an empty frame. -/
def envNoData : TickerEnv := ⟨true, none, false, 0, .ok 0, none⟩

/-- Artifact present and 100 seconds old (fresh). -/
def envFresh : TickerEnv := ⟨true, none, true, 100, .ok 5, none⟩

/-- Artifact absent, fetch raises a network error. -/
def envNetErr : TickerEnv := ⟨true, none, false, 0, .error "ConnectionError", none⟩

/-- First run: output folder absent, `makedirs` succeeds, artifact
absent, fetch succeeds with 1 row, write succeeds. -/
def envFirstRun : TickerEnv := ⟨false, none, false, 0, .ok 1, none⟩

def flW : Option (List String) := some ["AAPL", "BADX"]

def envW : String → TickerEnv := fun t => if t = "AAPL" then envFetchOk else envNoData

def permW : List String := ["BADX", "AAPL"]

def lsW : List String := [" aapl ", "", "# index header", "msft"]

def lsX : List String := "# header" :: (List.replicate 199 "AAA" ++ ["BBB"])

def infoEmpty : YfInfo := ⟨none, none, none, none, none⟩

def infoLong : YfInfo :=
  ⟨some "Apple Inc.", none, none, none, some ⟨List.replicate 501 'a'⟩⟩

def recLong : CompanyRecord :=
  ⟨"AAPL", "Apple Inc.", "N/A", "N/A", ⟨List.replicate 500 'a' ++ ['.', '.', '.']⟩⟩

/-! ### Claim theorems -/

/-- Claim C1: the spec requires that on an empty identifier list the
orchestrator's average-time computation not divide by zero and that the
run complete normally with two empty lists.  The code divides
`elapsed_time` by `len(tickers)` unconditionally, so on an empty ticker
list (here: a ticker file holding only a comment and a blank line, which
loads to `[]`) `download_nasdaq_200_bulk` raises `ZeroDivisionError`
instead — a bug in the code relative to the spec's stated intent. -/
theorem bulk_empty_list_raises :
    get_top_nasdaq_stocks (some ["# comment", ""]) 200 = [] ∧
    download_nasdaq_200_bulk (some ["# comment", ""]) (fun _ => envFetchOk) [] =
      .error "ZeroDivisionError: float division by zero" := by
  decide

/-- Claim C4: any error raised during the fetch/persist steps of
`download_single_ticker` (modelled as the body returning `.error`) is
caught at the task boundary and becomes a failure outcome carrying the
error's description; and regardless of any such failures the orchestrator
loop still yields exactly one outcome per submitted task, so no error
aborts sibling tasks or the orchestrator. -/
theorem single_ticker_catches_errors (ticker : String) (env : TickerEnv)
    (e : String) (eff : Effects) (perm : List String) (envs : String → TickerEnv)
    (h : download_single_ticker_body ticker env = .error (e, eff)) :
    download_single_ticker ticker env = (⟨ticker, false, "Error: " ++ e⟩, eff) ∧
    (run_bulk_loop perm envs).1.length + (run_bulk_loop perm envs).2.length =
      perm.length := by
  constructor
  · unfold download_single_ticker
    rw [h]
  · exact run_bulk_loop_length perm envs

theorem single_ticker_catches_errors_witness :
    download_single_ticker_body "AAPL" envNetErr =
      .error ("ConnectionError", ⟨true, false⟩) ∧
    download_single_ticker "AAPL" envNetErr =
      (⟨"AAPL", false, "Error: ConnectionError"⟩, ⟨true, false⟩) ∧
    (run_bulk_loop ["AAPL"] (fun _ => envNetErr)).1.length +
      (run_bulk_loop ["AAPL"] (fun _ => envNetErr)).2.length = 1 :=
  ⟨by decide,
   (single_ticker_catches_errors "AAPL" envNetErr "ConnectionError" ⟨true, false⟩
      ["AAPL"] (fun _ => envNetErr) (by decide)).1,
   (single_ticker_catches_errors "AAPL" envNetErr "ConnectionError" ⟨true, false⟩
      ["AAPL"] (fun _ => envNetErr) (by decide)).2⟩

/-- Claim C5 counterexample: for a fresh artifact the code's success
message is `"Already exists (recent)"` (capital `A`), so the claimed
message `"already exists (recent)"` never occurs: the claim as stated is
false at this input. -/
theorem fresh_artifact_message_cex :
    envFresh.fileExists = true ∧ envFresh.fileAge < 86400 ∧
    (download_single_ticker "AAPL" envFresh).1.success = true ∧
    (download_single_ticker "AAPL" envFresh).1.message ≠ "already exists (recent)" ∧
    (download_single_ticker "AAPL" envFresh).1.message = "Already exists (recent)" := by
  decide

/-- Claim C5 (amended): when the artifact exists, is within the 24-hour
freshness window, and (consistently with a real filesystem, where a file
can only exist inside an existing folder) the output folder exists,
`download_single_ticker` short-circuits with a success outcome whose
message is `"Already exists (recent)"` — capitalized as in the code — and
performs no history fetch and no write. -/
theorem fresh_artifact_short_circuits (ticker : String) (env : TickerEnv)
    (hdir : env.dirExists = true) (hex : env.fileExists = true)
    (hage : env.fileAge < 86400) :
    download_single_ticker ticker env =
      (⟨ticker, true, "Already exists (recent)"⟩, ⟨false, false⟩) := by
  unfold download_single_ticker download_single_ticker_body
  rw [hdir]
  simp [hex, hage]

theorem fresh_artifact_short_circuits_witness :
    envFresh.dirExists = true ∧ envFresh.fileExists = true ∧
    envFresh.fileAge < 86400 ∧
    download_single_ticker "AAPL" envFresh =
      (⟨"AAPL", true, "Already exists (recent)"⟩, ⟨false, false⟩) :=
  ⟨rfl, rfl, by decide,
   fresh_artifact_short_circuits "AAPL" envFresh rfl rfl (by decide)⟩

/-- Claim C6 counterexample: with no cached artifact and an empty fetched
series the code's failure message is `"No data available"` (capital `N`),
so the claimed message `"no data available"` never occurs: the claim as
stated is false at this input. -/
theorem no_data_message_cex :
    envNoData.fileExists = false ∧ envNoData.fetch = .ok 0 ∧
    (download_single_ticker "AAPL" envNoData).1.message ≠ "no data available" ∧
    (download_single_ticker "AAPL" envNoData).1.message = "No data available" ∧
    (download_single_ticker "AAPL" envNoData).2.wrote = false := by
  decide

/-- Claim C6 (amended): when the artifact is absent or at least 24 hours
old, and the output-folder creation step raises no error (the folder
already exists, as it does after any prior run, or `makedirs` succeeds
as on a first run), `download_single_ticker` performs the history
fetch; if the fetched series is empty it returns a failure outcome with
message `"No data available"` — capitalized as in the code — and writes
nothing; otherwise it performs the write persisting the series to the
artifact path and, the write raising no error, returns a success
outcome whose message carries the row count — a raised write error
being caught and converted to a failure outcome carrying its
description. -/
theorem stale_artifact_fetch_behavior (ticker : String) (env : TickerEnv)
    (hmk : env.dirExists = true ∨ env.mkdirError = none)
    (hstale : env.fileExists = false ∨ 86400 ≤ env.fileAge) :
    (download_single_ticker ticker env).2.fetched = true ∧
    (env.fetch = .ok 0 →
      download_single_ticker ticker env =
        (⟨ticker, false, "No data available"⟩, ⟨true, false⟩)) ∧
    (∀ n : Nat, env.fetch = .ok (n + 1) →
      (download_single_ticker ticker env).2.wrote = true ∧
      (env.writeError = none →
        download_single_ticker ticker env =
          (⟨ticker, true, "Downloaded " ++ toString (n + 1) ++ " records"⟩,
           ⟨true, true⟩)) ∧
      (∀ e : String, env.writeError = some e →
        download_single_ticker ticker env =
          (⟨ticker, false, "Error: " ++ e⟩, ⟨true, true⟩))) := by
  have hmk2 : (if env.dirExists then (none : Option String) else env.mkdirError) = none := by
    rcases hmk with h | h
    · simp [h]
    · by_cases hd : env.dirExists = true
      · simp [hd]
      · simp [hd, h]
  have hcond : ¬ (env.fileExists ∧ env.fileAge < 86400) := by
    rcases hstale with h | h <;> rintro ⟨h1, h2⟩
    · simp [h] at h1
    · omega
  refine ⟨?_, ?_, ?_⟩
  · unfold download_single_ticker download_single_ticker_body
    rw [hmk2]
    rcases henv : env.fetch with e | rows
    · simp [hcond, henv]
    · rcases hw : env.writeError with _ | wv <;>
        rcases rows with _ | m <;> simp [hcond, henv, hw]
  · intro hf
    unfold download_single_ticker download_single_ticker_body
    rw [hmk2]
    simp [hcond, hf]
  · intro n hf
    refine ⟨?_, ?_, ?_⟩
    · unfold download_single_ticker download_single_ticker_body
      rw [hmk2]
      rcases hw : env.writeError with _ | wv <;> simp [hcond, hf, hw]
    · intro hw
      unfold download_single_ticker download_single_ticker_body
      rw [hmk2]
      simp [hcond, hf, hw]
    · intro e hw
      unfold download_single_ticker download_single_ticker_body
      rw [hmk2]
      simp [hcond, hf, hw]

theorem stale_artifact_fetch_behavior_witness :
    (envFirstRun.dirExists = true ∨ envFirstRun.mkdirError = none) ∧
    (envFirstRun.fileExists = false ∨ 86400 ≤ envFirstRun.fileAge) ∧
    (download_single_ticker "AAPL" envFirstRun).2.fetched = true ∧
    download_single_ticker "AAPL" envFirstRun =
      (⟨"AAPL", true, "Downloaded " ++ toString 1 ++ " records"⟩, ⟨true, true⟩) ∧
    download_single_ticker "AAPL" envNoData =
      (⟨"AAPL", false, "No data available"⟩, ⟨true, false⟩) :=
  ⟨Or.inr rfl, Or.inl rfl,
   (stale_artifact_fetch_behavior "AAPL" envFirstRun (Or.inr rfl) (Or.inl rfl)).1,
   ((stale_artifact_fetch_behavior "AAPL" envFirstRun (Or.inr rfl) (Or.inl rfl)).2.2
      0 rfl).2.1 rfl,
   (stale_artifact_fetch_behavior "AAPL" envNoData (Or.inl rfl) (Or.inl rfl)).2.1 rfl⟩

/-- Claim C7: a first positional worker-count argument that `int(...)`
rejects makes `main` fall back to the default of 10 with a warning
(second component `true`) rather than failing. -/
theorem invalid_workers_falls_back (a : String) (rest : List String)
    (h : int_of_string a = none) :
    parse_max_workers (a :: rest) = (10, true) := by
  simp only [parse_max_workers]
  rw [h]

theorem invalid_workers_falls_back_witness :
    int_of_string "abc" = none ∧ parse_max_workers ["abc"] = (10, true) :=
  ⟨by decide, invalid_workers_falls_back "abc" [] (by decide)⟩

/-- Claim C3: for every non-empty ticker list (unique identifiers, per the
spec's orchestrator contract) and every completion order, the bulk
orchestrator returns the pair of lists built by the result loop, those
lists together hold exactly one outcome per submitted identifier (their
concatenation is a permutation of the ticker list), and they partition
the input set: every ticker lands in exactly one of the two lists. -/
theorem bulk_partitions_input (fl : Option (List String)) (env : String → TickerEnv)
    (perm : List String)
    (hne : get_top_nasdaq_stocks fl 200 ≠ [])
    (hperm : perm.Perm (get_top_nasdaq_stocks fl 200))
    (hnd : (get_top_nasdaq_stocks fl 200).Nodup) :
    download_nasdaq_200_bulk fl env perm =
      .ok ((run_bulk_loop perm env).1, (run_bulk_loop perm env).2) ∧
    ((run_bulk_loop perm env).1 ++ (run_bulk_loop perm env).2.map Prod.fst).Perm
      (get_top_nasdaq_stocks fl 200) ∧
    ∀ t, t ∈ get_top_nasdaq_stocks fl 200 →
      ((t ∈ (run_bulk_loop perm env).1 ∧
        t ∉ (run_bulk_loop perm env).2.map Prod.fst) ∨
       (t ∉ (run_bulk_loop perm env).1 ∧
        t ∈ (run_bulk_loop perm env).2.map Prod.fst)) := by
  have hp : ((run_bulk_loop perm env).1 ++
      (run_bulk_loop perm env).2.map Prod.fst).Perm (get_top_nasdaq_stocks fl 200) :=
    (run_bulk_loop_perm perm env).trans hperm
  refine ⟨?_, hp, ?_⟩
  · have h0 : ¬ (get_top_nasdaq_stocks fl 200).length = 0 := by
      simpa [List.length_eq_zero] using hne
    unfold download_nasdaq_200_bulk
    rw [if_neg h0]
  · intro t ht
    have hmem : t ∈ (run_bulk_loop perm env).1 ++
        (run_bulk_loop perm env).2.map Prod.fst := hp.mem_iff.mpr ht
    have hnd2 : ((run_bulk_loop perm env).1 ++
        (run_bulk_loop perm env).2.map Prod.fst).Nodup := hp.nodup_iff.mpr hnd
    rcases List.nodup_append.mp hnd2 with ⟨-, -, hdisj⟩
    rcases List.mem_append.mp hmem with h1 | h2
    · exact Or.inl ⟨h1, fun h2 => hdisj h1 h2⟩
    · exact Or.inr ⟨fun h1 => hdisj h1 h2, h2⟩

theorem bulk_partitions_input_witness :
    get_top_nasdaq_stocks flW 200 ≠ [] ∧
    permW.Perm (get_top_nasdaq_stocks flW 200) ∧
    (get_top_nasdaq_stocks flW 200).Nodup ∧
    download_nasdaq_200_bulk flW envW permW =
      .ok ((run_bulk_loop permW envW).1, (run_bulk_loop permW envW).2) ∧
    ((run_bulk_loop permW envW).1 ++
      (run_bulk_loop permW envW).2.map Prod.fst).Perm (get_top_nasdaq_stocks flW 200) ∧
    (("AAPL" ∈ (run_bulk_loop permW envW).1 ∧
      "AAPL" ∉ (run_bulk_loop permW envW).2.map Prod.fst) ∨
     ("AAPL" ∉ (run_bulk_loop permW envW).1 ∧
      "AAPL" ∈ (run_bulk_loop permW envW).2.map Prod.fst)) := by
  have h := bulk_partitions_input flW envW permW (by decide) (by decide) (by decide)
  exact ⟨by decide, by decide, by decide, h.1, h.2.1, h.2.2 "AAPL" (by decide)⟩

/-- Claim C8: the loader's output is exactly the file's lines stripped,
with blank lines and lines starting with `#` removed, the remainder
uppercased in file order, truncated to `count` entries: every returned
identifier is an uppercased, non-empty, non-comment line of the file. -/
theorem loader_filters_and_uppercases (ls : List String) (count : Nat) :
    get_top_nasdaq_stocks (some ls) count =
      ((((ls.map pyStrip).filter
          (fun l => !(l == "") && !(pyStartsWith l "#"))).map pyUpper).take count) := by
  have hfm : ls.filterMap processLine =
      (((ls.map pyStrip).filter
        (fun l => !(l == "") && !(pyStartsWith l "#"))).map pyUpper) := by
    induction ls with
    | nil => rfl
    | cons x xs ih =>
      simp only [List.filterMap_cons, List.map_cons, List.filter_cons]
      by_cases h1 : pyStrip x = ""
      · simp [processLine, h1, ih]
      · by_cases h2 : pyStartsWith (pyStrip x) "#" = true
        · simp [processLine, h1, h2, ih]
        · simp [processLine, h1, h2, ih]
  rw [get_top_eq_take, hfm]

/-- Claim C9: the summarizer never throws outward: a raised exception
(`.error e` from the collaborator) and missing metadata both come back as
structured error values, and the `__main__` block invoked with no
identifier argument emits the structured error record and exits with the
nonzero status 1. -/
theorem summarizer_never_throws :
    (∀ ts e : String, get_company_info ts (.error e) = .error e) ∧
    (∀ (ts : String) (info : YfInfo), info.shortName = none →
      get_company_info ts (.ok info) =
        .error ("Could not find company info for " ++ ts)) ∧
    (∀ ir : Except String YfInfo,
      summarizer_main [] ir = (.error "No ticker symbol provided", 1)) := by
  refine ⟨fun ts e => rfl, fun ts info h => ?_, fun ir => rfl⟩
  simp [get_company_info, h]

theorem summarizer_never_throws_witness :
    get_company_info "AAPL" (.error "boom") = .error "boom" ∧
    infoEmpty.shortName = none ∧
    get_company_info "MSFT" (.ok infoEmpty) =
      .error ("Could not find company info for " ++ "MSFT") ∧
    summarizer_main [] (.error "x") = (.error "No ticker symbol provided", 1) :=
  ⟨summarizer_never_throws.1 "AAPL" "boom", rfl,
   summarizer_never_throws.2.1 "MSFT" infoEmpty rfl,
   summarizer_never_throws.2.2 (.error "x")⟩

set_option maxRecDepth 40000 in
/-- Claim C10 counterexample: `lsX` is a 201-line file whose first line is
a comment; `"BBB"` sits on line 201 (index 200), beyond the 200th line,
yet the loader keeps it (truncation counts kept entries, not file lines)
and the bulk loop produces an outcome for it, so "identifiers beyond the
200th line are never fetched" is false as stated. -/
theorem loader_line201_cex :
    lsX.length = 201 ∧ lsX.get? 200 = some "BBB" ∧
    "BBB" ∈ get_top_nasdaq_stocks (some lsX) 200 ∧
    "BBB" ∈ (run_bulk_loop (get_top_nasdaq_stocks (some lsX) 200)
      (fun _ => envFresh)).1 := by
  decide

/-- Claim C10 (amended): the loader truncates the kept (non-blank,
non-comment) entries to the first 200, the bulk run therefore processes
at most 200 identifiers, and any identifier not among those first 200
kept entries receives no Fetch Outcome: it appears in neither output
list of the bulk loop. -/
theorem loader_truncates_to_200 (ls : List String) (t : String)
    (env : String → TickerEnv) (perm : List String)
    (hperm : perm.Perm (get_top_nasdaq_stocks (some ls) 200))
    (ht : t ∉ get_top_nasdaq_stocks (some ls) 200) :
    get_top_nasdaq_stocks (some ls) 200 = (ls.filterMap processLine).take 200 ∧
    (get_top_nasdaq_stocks (some ls) 200).length ≤ 200 ∧
    t ∉ (run_bulk_loop perm env).1 ∧
    t ∉ (run_bulk_loop perm env).2.map Prod.fst := by
  have heq := get_top_eq_take ls 200
  have hlen : (get_top_nasdaq_stocks (some ls) 200).length ≤ 200 := by
    rw [heq, List.length_take]
    omega
  have hmem : t ∉ (run_bulk_loop perm env).1 ++
      (run_bulk_loop perm env).2.map Prod.fst := fun h =>
    ht (((run_bulk_loop_perm perm env).trans hperm).mem_iff.mp h)
  simp only [List.mem_append, not_or] at hmem
  exact ⟨heq, hlen, hmem.1, hmem.2⟩

theorem loader_truncates_to_200_witness :
    (["AAPL"] : List String).Perm (get_top_nasdaq_stocks (some ["aapl"]) 200) ∧
    "XYZ" ∉ get_top_nasdaq_stocks (some ["aapl"]) 200 ∧
    get_top_nasdaq_stocks (some ["aapl"]) 200 =
      ((["aapl"] : List String).filterMap processLine).take 200 ∧
    (get_top_nasdaq_stocks (some ["aapl"]) 200).length ≤ 200 ∧
    "XYZ" ∉ (run_bulk_loop ["AAPL"] (fun _ => envFresh)).1 ∧
    "XYZ" ∉ (run_bulk_loop ["AAPL"] (fun _ => envFresh)).2.map Prod.fst := by
  have h := loader_truncates_to_200 ["aapl"] "XYZ" (fun _ => envFresh) ["AAPL"]
    (by decide) (by decide)
  exact ⟨by decide, by decide, h.1, h.2.1, h.2.2.1, h.2.2.2⟩

theorem rfind_take_replicate :
    rfindChar ((List.replicate 501 'a').take 500) '.' = -1 := by
  rw [List.take_replicate]
  apply rfindChar_eq_neg_one
  intro hm
  exact absurd (List.eq_of_mem_replicate hm) (by decide)

theorem truncate_replicate_501 :
    truncate_description (List.replicate 501 'a') =
      List.replicate 500 'a' ++ ['.', '.', '.'] := by
  have hlen : 500 < (List.replicate 501 'a').length := by
    rw [List.length_replicate]; omega
  have hneg : ¬ (200 < rfindChar ((List.replicate 501 'a').take 500) '.') := by
    rw [rfind_take_replicate]; omega
  simp only [truncate_description, if_pos hlen, if_neg hneg]
  rw [List.take_replicate]
  norm_num

theorem get_company_info_infoLong :
    get_company_info "AAPL" (.ok infoLong) = .ok recLong := by
  have hne : ¬ (infoLong.shortName = none) := by decide
  simp only [get_company_info, if_neg hne]
  have hdata : (infoLong.longBusinessSummary.getD "").data = List.replicate 501 'a' := rfl
  rw [hdata, truncate_replicate_501]
  rfl

/-- Claim C2 counterexample: `infoLong` carries a 501-character
description containing no period, and on it the summarizer succeeds with
a 503-character description (the 500-character prefix plus `"..."`) —
more than the claimed "at most 500 characters", so the claim as stated
is false at this input. -/
theorem summarizer_over_500_cex :
    (infoLong.longBusinessSummary.getD "").data.length = 501 ∧
    get_company_info "AAPL" (.ok infoLong) = .ok recLong ∧
    500 < recLong.description.data.length := by
  refine ⟨?_, get_company_info_infoLong, ?_⟩
  · show (List.replicate 501 'a').length = 501
    rw [List.length_replicate]
  · show 500 < (List.replicate 500 'a' ++ ['.', '.', '.']).length
    rw [List.length_append, List.length_replicate]
    have h3 : (['.', '.', '.'] : List Char).length = 3 := rfl
    rw [h3]
    omega

/-- Claim C2 (amended): for a description longer than 500 characters the
summarizer's successful output carries the code's truncation of it; when
the 500-character prefix has a period at an index above 200 the result is
cut just after the last such period — hence at most 500 characters and
ending in a period — and otherwise it is the 500-character prefix
followed by `"..."`, 503 characters, exceeding 500. -/
theorem summarizer_truncation (ts : String) (info : YfInfo) (rec : CompanyRecord)
    (hrec : get_company_info ts (.ok info) = .ok rec)
    (hlen : 500 < (info.longBusinessSummary.getD "").data.length) :
    rec.description.data =
      truncate_description (info.longBusinessSummary.getD "").data ∧
    (200 < rfindChar ((info.longBusinessSummary.getD "").data.take 500) '.' →
      rec.description.data.length ≤ 500 ∧
      rec.description.data.getLast? = some '.') ∧
    (rfindChar ((info.longBusinessSummary.getD "").data.take 500) '.' ≤ 200 →
      rec.description.data =
        (info.longBusinessSummary.getD "").data.take 500 ++ ['.', '.', '.'] ∧
      rec.description.data.length = 503) := by
  have hdesc : rec.description.data =
      truncate_description (info.longBusinessSummary.getD "").data := by
    simp only [get_company_info] at hrec
    split_ifs at hrec with h
    injection hrec with h2
    rw [← h2]
  refine ⟨hdesc, ?_, ?_⟩
  · intro hgt
    have h0 : (0 : Int) ≤
        rfindChar ((info.longBusinessSummary.getD "").data.take 500) '.' := by omega
    have hlt := rfindChar_lt_length ((info.longBusinessSummary.getD "").data.take 500) '.'
    have htr : truncate_description (info.longBusinessSummary.getD "").data =
        ((info.longBusinessSummary.getD "").data.take 500).take
          ((rfindChar ((info.longBusinessSummary.getD "").data.take 500) '.').toNat + 1) := by
      simp only [truncate_description, if_pos hlen, if_pos hgt]
    constructor
    · rw [hdesc, htr, List.length_take, List.length_take]
      rw [List.length_take] at hlt
      omega
    · rw [hdesc, htr]
      exact getLast_of_take_succ _ _ '.' (rfindChar_get _ '.' h0)
  · intro hle
    have hneg : ¬ (200 < rfindChar ((info.longBusinessSummary.getD "").data.take 500) '.') := by
      omega
    have htr : truncate_description (info.longBusinessSummary.getD "").data =
        (info.longBusinessSummary.getD "").data.take 500 ++ ['.', '.', '.'] := by
      simp only [truncate_description, if_pos hlen, if_neg hneg]
    refine ⟨by rw [hdesc, htr], ?_⟩
    rw [hdesc, htr, List.length_append, List.length_take]
    have h3 : (['.', '.', '.'] : List Char).length = 3 := rfl
    rw [h3]
    omega

theorem summarizer_truncation_witness :
    500 < (infoLong.longBusinessSummary.getD "").data.length ∧
    recLong.description.data =
      truncate_description (infoLong.longBusinessSummary.getD "").data ∧
    recLong.description.data =
      (infoLong.longBusinessSummary.getD "").data.take 500 ++ ['.', '.', '.'] ∧
    recLong.description.data.length = 503 := by
  have hlen : 500 < (infoLong.longBusinessSummary.getD "").data.length := by
    show 500 < (List.replicate 501 'a').length
    rw [List.length_replicate]; omega
  have hle : rfindChar ((infoLong.longBusinessSummary.getD "").data.take 500) '.' ≤ 200 := by
    show rfindChar ((List.replicate 501 'a').take 500) '.' ≤ 200
    rw [rfind_take_replicate]; omega
  have h := summarizer_truncation "AAPL" infoLong recLong get_company_info_infoLong hlen
  exact ⟨hlen, h.1, (h.2.2 hle).1, (h.2.2 hle).2⟩
